import Mathlib

/-!
Shallow embedding of the meeting-bot lifecycle reconciliation engine of the
contentcraft repository: the status mapping and polling logic of
`RecallService.updateBotStatus`, the transcript fetch of
`RecallService.getTranscript`, the transcript-readiness gates of
`RecallService.processMeeting` (src/server/services/oauthService.ts), and the
background reconciliation sweep and the recording-toggle endpoint of
`registerRoutes` (server routes file).

Timestamps are modelled as integers (milliseconds since the epoch), provider
HTTP results as `Option` values (`none` models a request that threw or a
missing/ill-typed field), and persistence as explicit record updates.
-/

namespace ContentCraft

/-- Application-level bot status column of the `recall_bots` table
(`'scheduled' | 'joined' | 'joining' | 'recording' | 'completed' | 'failed'`;
`'joined'` appears in the schema comment and the sweep's active-status filter
but is never produced by the status mapping). -/
inductive BotStatus
  | scheduled
  | joined
  | joining
  | recording
  | completed
  | failed
  deriving DecidableEq

/-- Meeting status column of the `meetings` table
(`'scheduled' | 'in_progress' | 'completed' | 'failed'`). -/
inductive MeetingStatus
  | scheduled
  | in_progress
  | completed
  | failed
  deriving DecidableEq

/-- A `recall_bots` row, restricted to the `status` column (the only column the
reconciliation logic reads or writes; ids and foreign keys are elided). -/
structure RecallBot where
  status : BotStatus
  deriving DecidableEq

/-- A `meetings` row, restricted to the `status` and `transcript` columns (the
only columns the reconciliation logic writes). -/
structure Meeting where
  status : MeetingStatus
  transcript : Option String
  deriving DecidableEq

/-- One entry of the provider's `status_changes` array; only its `code` field
is read by the service. -/
structure StatusChange where
  code : String
  deriving DecidableEq

/-- One entry of the provider's `recordings` array; only `completed_at` and
`transcription_completed_at` are read.  `none` models a missing field (whose
`new Date(...)` in the source yields `NaN`, and which is falsy in the
truthiness checks). -/
structure Recording where
  completed_at : Option Int
  transcription_completed_at : Option Int
  deriving DecidableEq

/-- The provider bot-status snapshot returned by `getBotStatus`.
`status_changes = none` and `recordings = none` model a missing or non-array
field; `transcriptionProvider` models `transcription_options?.provider`. -/
structure BotSnapshot where
  status_changes : Option (List StatusChange)
  recordings : Option (List Recording)
  transcriptionProvider : Option String
  deriving DecidableEq

/-- Status mapping of `updateBotStatus` (oauthService.ts lines 904-917): the
latest provider code is mapped onto the application status; any other code
leaves the current status in place. -/
def mapRecallCode (latestStatus : String) (current : BotStatus) : BotStatus :=
  if latestStatus = "ready" then .scheduled
  else if latestStatus = "joining_call" ∨ latestStatus = "in_waiting_room" then .joining
  else if latestStatus = "in_call_not_recording" ∨ latestStatus = "in_call_recording" then .recording
  else if latestStatus = "call_ended" ∨ latestStatus = "recording_done" ∨ latestStatus = "done" then .completed
  else if latestStatus = "failed" ∨ latestStatus = "error" then .failed
  else current

/-- The provider status codes the mapping recognises; every other code falls
through to the unchanged-status branch. -/
def recognizedRecallCodes : List String :=
  ["ready", "joining_call", "in_waiting_room", "in_call_not_recording",
   "in_call_recording", "call_ended", "recording_done", "done", "failed", "error"]

/-- Result of `updateBotStatus`: the bot record it returns, and whether a
`storage.updateRecallBot` persistence write was issued. -/
structure UpdateResult where
  bot : RecallBot
  wrote : Bool
  deriving DecidableEq

/-- `RecallService.updateBotStatus` (oauthService.ts lines 889-938).
`botStatus = none` models the `getBotStatus` request throwing (the catch block
returns the stored record).  A missing, non-array or empty `status_changes`
returns the record unchanged; otherwise the last entry's code is mapped and
the row is written only when the mapped status differs.  The function is
total: every error path is caught in the source and yields the unchanged
record. -/
def updateBotStatus (recallBot : RecallBot) (botStatus : Option BotSnapshot) : UpdateResult :=
  match botStatus with
  | none => ⟨recallBot, false⟩
  | some s =>
    match s.status_changes with
    | none => ⟨recallBot, false⟩
    | some changes =>
      match changes.getLast? with
      | none => ⟨recallBot, false⟩
      | some latest =>
        let status := mapRecallCode latest.code recallBot.status
        if status ≠ recallBot.status then ⟨⟨status⟩, true⟩
        else ⟨recallBot, false⟩

/-- JavaScript `String.prototype.trim`: whitespace removed from both ends,
modelled over the string's character list so that it is kernel-computable. -/
def trimJS (s : String) : String :=
  ⟨((s.data.dropWhile Char.isWhitespace).reverse.dropWhile Char.isWhitespace).reverse⟩

/-- JavaScript string truthiness for optional string fields: a missing field
or an empty string is falsy. -/
def truthyStr : Option String → Option String
  | none => none
  | some s => if s = "" then none else some s

/-- One transcript segment: `segment.text || segment.content ||
segment.transcript || ''`. -/
structure Segment where
  text : Option String
  content : Option String
  transcript : Option String
  deriving DecidableEq

/-- Text extracted from one segment (first truthy of `text`, `content`,
`transcript`, else the empty string). -/
def segmentText (seg : Segment) : String :=
  match truthyStr seg.text with
  | some s => s
  | none =>
    match truthyStr seg.content with
    | some s => s
    | none =>
      match truthyStr seg.transcript with
      | some s => s
      | none => ""

/-- `response.map(segmentText).join(' ')`. -/
def joinSegments (segs : List Segment) : String :=
  String.intercalate " " (segs.map segmentText)

/-- The `data` property of a transcript response: either a string or an array
of segments. -/
inductive DataField
  | str (s : String)
  | arr (segs : List Segment)
  deriving DecidableEq

/-- A JSON body returned by a transcript endpoint, in the shapes the service
probes: a bare string, an object (with optional `transcript`, `text`,
`content` and `data` properties, checked in that order), or a bare array of
segments. -/
inductive TranscriptBody
  | str (s : String)
  | obj (transcript : Option String) (text : Option String)
        (content : Option String) (data : Option DataField)
  | arr (segs : List Segment)
  deriving DecidableEq

/-- Shape probing of one endpoint response (`getTranscript` loop body,
oauthService.ts lines 821-867): string body, then the `transcript`, `text`,
`content` properties, then array-of-segments, then `data` as string or array.
Truthiness guards mean an empty string body or field is skipped, and a joined
segment array is used only when its trimmed text is non-empty. -/
def extractTranscript : TranscriptBody → Option String
  | .str s => if s = "" then none else some s
  | .arr segs =>
    let full := joinSegments segs
    if trimJS full ≠ "" then some full else none
  | .obj t x c d =>
    match truthyStr t with
    | some s => some s
    | none =>
      match truthyStr x with
      | some s => some s
      | none =>
        match truthyStr c with
        | some s => some s
        | none =>
          match d with
          | none => none
          | some (.str s) => if s = "" then none else some s
          | some (.arr segs) =>
            let full := joinSegments segs
            if trimJS full ≠ "" then some full else none

/-- What each of the three candidate transcript endpoints would answer:
`none` models the request throwing (caught, next endpoint tried). -/
structure TranscriptEnv where
  botTranscript : Option TranscriptBody
  botTranscriptSlash : Option TranscriptBody
  recordingTranscript : Option TranscriptBody
  deriving DecidableEq

/-- Result of a transcript fetch: the returned text, if any, and the indices
of the endpoints actually requested, in order. -/
structure TranscriptFetch where
  transcript : Option String
  probed : List Nat
  deriving DecidableEq

/-- The endpoint loop of `getTranscript`: endpoints are probed in order and
the first non-empty extraction wins; a throwing endpoint or an extraction
failure moves on to the next endpoint. -/
def tryTranscriptEndpoints : List (Nat × Option TranscriptBody) → TranscriptFetch
  | [] => ⟨none, []⟩
  | (i, resp) :: rest =>
    match resp with
    | none =>
      let r := tryTranscriptEndpoints rest
      ⟨r.transcript, i :: r.probed⟩
    | some body =>
      match extractTranscript body with
      | some t => ⟨some t, [i]⟩
      | none =>
        let r := tryTranscriptEndpoints rest
        ⟨r.transcript, i :: r.probed⟩

/-- `RecallService.getTranscript` (oauthService.ts lines 771-886).
`snapshot = none` models its own `getBotStatus` call throwing (the outer catch
returns null).  With no recordings, or with the first recording's
`transcription_completed_at` unset, it returns null without requesting any
transcript endpoint; otherwise the three candidate endpoints are probed in
order. -/
def getTranscript (snapshot : Option BotSnapshot) (env : TranscriptEnv) : TranscriptFetch :=
  match snapshot with
  | none => ⟨none, []⟩
  | some s =>
    match s.recordings with
    | none => ⟨none, []⟩
    | some [] => ⟨none, []⟩
    | some (r0 :: _) =>
      match r0.transcription_completed_at with
      | none => ⟨none, []⟩
      | some _ =>
        tryTranscriptEndpoints
          [(1, env.botTranscript), (2, env.botTranscriptSlash), (3, env.recordingTranscript)]

/-- The readiness gates of `processMeeting` that run once the meeting has no
transcript (oauthService.ts lines 961-1024), as one Boolean: the snapshot's
latest status code must be `done`, `recording_done` or `call_ended` (a missing
or empty `status_changes` throws and is caught: no fetch), the `recordings`
array must be non-empty, transcription must not be disabled
(`transcription_options?.provider === 'none'`), and the quiescence windows
must have elapsed: at least 2 minutes since `transcription_completed_at` when
it is set, otherwise at least 5 minutes since the recording's `completed_at`
(a missing `completed_at` yields `NaN < 5 === false`, so the fetch proceeds). -/
def processGatesPass (s : BotSnapshot) (now : Int) : Bool :=
  match s.status_changes with
  | none => false
  | some changes =>
    match changes.getLast? with
    | none => false
    | some latest =>
      if ¬(latest.code = "done" ∨ latest.code = "recording_done" ∨ latest.code = "call_ended") then false
      else
        match s.recordings with
        | none => false
        | some [] => false
        | some (r0 :: _) =>
          if s.transcriptionProvider = some "none" then false
          else
            match r0.transcription_completed_at with
            | some tca => decide (¬(now - tca < 2 * 60000))
            | none =>
              match r0.completed_at with
              | some ca => decide (¬(now - ca < 5 * 60000))
              | none => true

/-- `RecallService.processMeeting` (oauthService.ts lines 941-1044), returning
the meeting row as it stands afterwards.  The source performs two independent
provider reads: `snapshot` models the `getBotStatus` call that feeds the
readiness gates (line 961), and `fetchSnapshot` models the separate, fresh
`getBotStatus` read that `getTranscript` performs internally (line 776) — the
two reads can disagree within one sweep.  A transcript is persisted together
with status `completed` in one `updateMeeting` call, and only when the fetched
text is non-empty after trimming; every other path leaves the row untouched. -/
def processMeeting (recallBot : RecallBot) (meeting : Meeting)
    (snapshot : Option BotSnapshot) (fetchSnapshot : Option BotSnapshot)
    (env : TranscriptEnv) (now : Int) : Meeting :=
  if recallBot.status ≠ .completed then meeting
  else
    match meeting.transcript with
    | some _ => meeting
    | none =>
      match snapshot with
      | none => meeting
      | some s =>
        if processGatesPass s now then
          match (getTranscript fetchSnapshot env).transcript with
          | some t =>
            if trimJS t ≠ "" then { meeting with transcript := some t, status := .completed }
            else meeting
          | none => meeting
        else meeting

/-- The non-terminal statuses loaded by the background sweep
(`inArray(recallBots.status, ['scheduled', 'joined', 'joining', 'recording'])`). -/
def activeStatuses : List BotStatus :=
  [.scheduled, .joined, .joining, .recording]

/-- Meeting-status propagation of sweep phase 1 (routes file lines 830-844):
bot `joined` or `recording` yield `in_progress`, `completed` yields
`completed`, `failed` yields `failed`, anything else leaves the current
meeting status. -/
def propagateMeetingStatus (botStatus : BotStatus) (meetingStatus : MeetingStatus) : MeetingStatus :=
  if botStatus = .joined then .in_progress
  else if botStatus = .recording then .in_progress
  else if botStatus = .completed then .completed
  else if botStatus = .failed then .failed
  else meetingStatus

/-- One bot together with its linked meeting: the slice of the store one
iteration of the sweep reads and writes (the meeting lookup by calendar event
id is assumed to find the bot's meeting). -/
structure SystemState where
  bot : RecallBot
  meeting : Meeting
  deriving DecidableEq

/-- Phase 1 of the background sweep for one bot (routes file lines 817-855),
also reporting whether a meeting write was issued: bots outside the active
set are not loaded; for a loaded bot, `updateBotStatus` runs, and when the bot
status changed the propagated meeting status is computed and written only when
it differs from the current one. -/
def sweepBotStepW (st : SystemState) (snapshot : Option BotSnapshot) : SystemState × Bool :=
  if st.bot.status ∈ activeStatuses then
    let r := updateBotStatus st.bot snapshot
    if r.bot.status ≠ st.bot.status then
      let meetingStatus := propagateMeetingStatus r.bot.status st.meeting.status
      if meetingStatus ≠ st.meeting.status then
        (⟨r.bot, { st.meeting with status := meetingStatus }⟩, true)
      else (⟨r.bot, st.meeting⟩, false)
    else (⟨r.bot, st.meeting⟩, false)
  else (st, false)

/-- The state after phase 1 of the sweep for one bot. -/
def sweepBotStep (st : SystemState) (snapshot : Option BotSnapshot) : SystemState :=
  (sweepBotStepW st snapshot).1

/-- One atomic state change of the reconciliation engine on a bot-meeting
pair: a phase-1 poll with an arbitrary provider snapshot, or a
`processMeeting` invocation (sweep phase 2, or the manual fetch-transcript
route) with arbitrary gate and fetch snapshots, endpoint responses and
wall-clock time. -/
inductive SweepStep : SystemState → SystemState → Prop
  | poll (st : SystemState) (snapshot : Option BotSnapshot) :
      SweepStep st (sweepBotStep st snapshot)
  | process (st : SystemState) (snapshot : Option BotSnapshot)
      (fetchSnapshot : Option BotSnapshot) (env : TranscriptEnv) (now : Int) :
      SweepStep st ⟨st.bot, processMeeting st.bot st.meeting snapshot fetchSnapshot env now⟩

/-- A freshly created bot-meeting pair: both records start `scheduled`, the
transcript null. -/
def initialState : SystemState :=
  ⟨⟨.scheduled⟩, ⟨.scheduled, none⟩⟩

/-- States the reconciliation engine can reach from a fresh, properly coupled
pair.  This state space keeps the data-model invariant of one Meeting per
event, linked to the event's Bot; the duplicate-meeting states a failed and
then retried enable leaves behind (see the `EventState` model below) fall
outside it. -/
inductive SweepReachable : SystemState → Prop
  | init : SweepReachable initialState
  | step {st st' : SystemState} :
      SweepReachable st → SweepStep st st' → SweepReachable st'

/-- Rank of a meeting status in the forward order
`scheduled → in_progress → {completed | failed}`. -/
def meetingRank : MeetingStatus → Nat
  | .scheduled => 0
  | .in_progress => 1
  | .completed => 2
  | .failed => 2

/-- Rank of a bot status in the forward order
`scheduled → joining → recording → {completed | failed}` (with `joined`
alongside `joining`, per the sweep's treatment). -/
def botRank : BotStatus → Nat
  | .scheduled => 0
  | .joined => 1
  | .joining => 1
  | .recording => 2
  | .completed => 3
  | .failed => 3

/-- All `recall_bots` and `meetings` rows of one calendar event, in insertion
order (the lookup `getRecallBotByCalendarEventId` returns the first bot row;
`createMeeting` always inserts a new row). -/
structure EventState where
  bots : List RecallBot
  meetings : List Meeting
  deriving DecidableEq

/-- The meeting row left behind when provider bot creation fails (routes file
lines 355-359). -/
def failedBotMeeting : Meeting :=
  ⟨.failed, some "Failed to create recording bot"⟩

/-- The recording-enable arm of `PATCH /api/calendar-events/:id/toggle-recording`
(routes file lines 305-374) for one calendar event: if a bot row already
exists the invocation is a no-op; otherwise, when the computed join time is in
the future, a meeting row is created with status `scheduled` and provider bot
creation is attempted — on success the bot row is saved and linked, on failure
the new meeting is updated to status `failed` with the diagnostic transcript
placeholder.  `joinTimeInFuture` and `botCreationSucceeds` abstract the clock
comparison and the provider call outcome. -/
def toggleRecordingEnable (st : EventState)
    (joinTimeInFuture : Bool) (botCreationSucceeds : Bool) : EventState :=
  match st.bots.head? with
  | some _ => st
  | none =>
    if joinTimeInFuture then
      if botCreationSucceeds then
        ⟨st.bots ++ [⟨.scheduled⟩], st.meetings ++ [⟨.scheduled, none⟩]⟩
      else
        ⟨st.bots, st.meetings ++ [failedBotMeeting]⟩
    else st

/-- Phase 1 of the background sweep restricted to one calendar event's store
slice, duplicate meetings included (routes file lines 817-855 over the
`EventState` model): the event's bot row is loaded when its status is in the
active set, `updateBotStatus` runs, and when the status changed the sweep
looks the meeting up by calendar event id — `getMeetingByCalendarEventId`
(storage layer) is an unordered select returning the FIRST matching row, which
in a duplicate-meeting state can be a stale meeting from an earlier failed
enable — and writes the propagated status to that row when it differs. -/
def sweepPollEvent (st : EventState) (snapshot : Option BotSnapshot) : EventState :=
  match st.bots with
  | [] => st
  | bot :: restBots =>
    if bot.status ∈ activeStatuses then
      let r := updateBotStatus bot snapshot
      if r.bot.status ≠ bot.status then
        match st.meetings with
        | [] => ⟨r.bot :: restBots, []⟩
        | m :: restMeetings =>
          let meetingStatus := propagateMeetingStatus r.bot.status m.status
          if meetingStatus ≠ m.status then
            ⟨r.bot :: restBots, { m with status := meetingStatus } :: restMeetings⟩
          else ⟨r.bot :: restBots, st.meetings⟩
      else ⟨r.bot :: restBots, st.meetings⟩
    else st

/-- Event states reachable from a fresh calendar event (no bot, no meeting)
by repeated recording-enable invocations with arbitrary outcomes. -/
inductive ToggleReach : EventState → Prop
  | init : ToggleReach ⟨[], []⟩
  | step {st : EventState} (joinTimeInFuture botCreationSucceeds : Bool) :
      ToggleReach st → ToggleReach (toggleRecordingEnable st joinTimeInFuture botCreationSucceeds)

/-- With a well-formed snapshot, `updateBotStatus` reduces to the mapped
status of the last `status_changes` entry, written only when it differs. -/
theorem updateBotStatus_some_eq (recallBot : RecallBot) (s : BotSnapshot)
    (changes : List StatusChange) (latest : StatusChange)
    (h1 : s.status_changes = some changes) (h2 : changes.getLast? = some latest) :
    updateBotStatus recallBot (some s) =
      if mapRecallCode latest.code recallBot.status ≠ recallBot.status
      then ⟨⟨mapRecallCode latest.code recallBot.status⟩, true⟩
      else ⟨recallBot, false⟩ := by
  simp only [updateBotStatus, h1, h2]

/-- The bot status returned by `updateBotStatus` is the mapped status of the
last `status_changes` entry. -/
theorem updateBotStatus_status (recallBot : RecallBot) (s : BotSnapshot)
    (changes : List StatusChange) (latest : StatusChange)
    (h1 : s.status_changes = some changes) (h2 : changes.getLast? = some latest) :
    (updateBotStatus recallBot (some s)).bot.status =
      mapRecallCode latest.code recallBot.status := by
  rw [updateBotStatus_some_eq recallBot s changes latest h1 h2]
  split_ifs with h
  · rfl
  · exact (not_ne_iff.mp h).symm

/-- An unrecognized provider code leaves the current status in place. -/
theorem mapRecallCode_unrecognized (code : String) (current : BotStatus)
    (h : code ∉ recognizedRecallCodes) : mapRecallCode code current = current := by
  simp only [recognizedRecallCodes, List.mem_cons, List.not_mem_nil, or_false, not_or] at h
  obtain ⟨h1, h2, h3, h4, h5, h6, h7, h8, h9, h10⟩ := h
  simp [mapRecallCode, h1, h2, h3, h4, h5, h6, h7, h8, h9, h10]

/-- Phase 1 of the sweep never touches the meeting transcript (it issues
status-only meeting updates). -/
theorem sweepBotStep_transcript (st : SystemState) (snap : Option BotSnapshot) :
    (sweepBotStep st snap).meeting.transcript = st.meeting.transcript := by
  simp only [sweepBotStep, sweepBotStepW]
  split_ifs <;> rfl

/-- `processMeeting` skips every fetch once the meeting has a transcript. -/
theorem processMeeting_preserves_transcript (recallBot : RecallBot) (meeting : Meeting)
    (snapshot fetchSnapshot : Option BotSnapshot) (env : TranscriptEnv) (now : Int)
    (t : String) (h : meeting.transcript = some t) :
    processMeeting recallBot meeting snapshot fetchSnapshot env now = meeting := by
  obtain ⟨ms, mt⟩ := meeting
  cases mt with
  | none => cases h
  | some u => simp [processMeeting]

/-- `processMeeting` either leaves the meeting untouched, or — only for a
completed bot with a null transcript — persists a non-empty transcript
together with status `completed` in one update. -/
theorem processMeeting_cases (recallBot : RecallBot) (meeting : Meeting)
    (snapshot fetchSnapshot : Option BotSnapshot) (env : TranscriptEnv) (now : Int) :
    processMeeting recallBot meeting snapshot fetchSnapshot env now = meeting ∨
    (recallBot.status = .completed ∧ meeting.transcript = none ∧
      ∃ t, trimJS t ≠ "" ∧
        processMeeting recallBot meeting snapshot fetchSnapshot env now =
          { meeting with transcript := some t, status := .completed }) := by
  by_cases hb : recallBot.status = .completed
  · obtain ⟨ms, mt⟩ := meeting
    cases mt with
    | some u => exact Or.inl (by simp [processMeeting])
    | none =>
      cases snapshot with
      | none => exact Or.inl (by simp [processMeeting])
      | some s =>
        by_cases hg : processGatesPass s now
        · cases hf : (getTranscript fetchSnapshot env).transcript with
          | none => exact Or.inl (by simp [processMeeting, hg, hf])
          | some t =>
            by_cases htr : trimJS t ≠ ""
            · exact Or.inr ⟨hb, rfl, t, htr, by simp [processMeeting, hb, hg, hf, htr]⟩
            · exact Or.inl (by simp [processMeeting, hg, hf, htr])
        · exact Or.inl (by simp [processMeeting, hg])
  · exact Or.inl (by simp [processMeeting, hb])

/-- Statuses in the sweep's active set are not `completed`. -/
theorem active_ne_completed {b : BotStatus} (h : b ∈ activeStatuses) :
    b ≠ .completed := by
  cases b <;> simp_all [activeStatuses]

/-- Statuses in the sweep's active set are not `failed`. -/
theorem active_ne_failed {b : BotStatus} (h : b ∈ activeStatuses) :
    b ≠ .failed := by
  cases b <;> simp_all [activeStatuses]

/-- Propagation yields a `completed` meeting only from a `completed` bot or a
meeting already `completed`. -/
theorem propagate_eq_completed {b : BotStatus} {m : MeetingStatus}
    (h : propagateMeetingStatus b m = .completed) : b = .completed ∨ m = .completed := by
  cases b <;> cases m <;> simp_all [propagateMeetingStatus]

/-- Propagation yields a `failed` meeting only from a `failed` bot or a
meeting already `failed`. -/
theorem propagate_eq_failed {b : BotStatus} {m : MeetingStatus}
    (h : propagateMeetingStatus b m = .failed) : b = .failed ∨ m = .failed := by
  cases b <;> cases m <;> simp_all [propagateMeetingStatus]

/-- From a non-terminal meeting status, propagation never lowers the rank. -/
theorem propagate_rank_mono {b : BotStatus} {m : MeetingStatus}
    (h : meetingRank m ≤ 1) :
    meetingRank m ≤ meetingRank (propagateMeetingStatus b m) := by
  cases b <;> cases m <;> simp_all [propagateMeetingStatus, meetingRank]

/-- Propagation spelled as a case table on the bot status. -/
theorem propagate_as_match (b : BotStatus) (m : MeetingStatus) :
    propagateMeetingStatus b m =
      (match b with
       | .joined => MeetingStatus.in_progress
       | .recording => MeetingStatus.in_progress
       | .completed => MeetingStatus.completed
       | .failed => MeetingStatus.failed
       | _ => m) := by
  cases b <;> rfl

/-- Coupling invariant of the sweep: a terminal meeting status is only ever
reached together with the matching terminal bot status. -/
def StatusesConsistent (st : SystemState) : Prop :=
  (st.meeting.status = .completed → st.bot.status = .completed) ∧
  (st.meeting.status = .failed → st.bot.status = .failed)

/-- A phase-1 poll preserves the coupling invariant. -/
theorem statusesConsistent_poll {st : SystemState} (snap : Option BotSnapshot)
    (h : StatusesConsistent st) : StatusesConsistent (sweepBotStep st snap) := by
  by_cases hactive : st.bot.status ∈ activeStatuses
  · simp only [sweepBotStep, sweepBotStepW, if_pos hactive]
    split_ifs with hchange hdiff
    · constructor
      · intro hc
        rcases propagate_eq_completed hc with hb | hm
        · exact hb
        · exact absurd (h.1 hm) (active_ne_completed hactive)
      · intro hf
        rcases propagate_eq_failed hf with hb | hm
        · exact hb
        · exact absurd (h.2 hm) (active_ne_failed hactive)
    · constructor
      · intro hc
        exact absurd (h.1 hc) (active_ne_completed hactive)
      · intro hf
        exact absurd (h.2 hf) (active_ne_failed hactive)
    · have heq : (updateBotStatus st.bot snap).bot.status = st.bot.status :=
        not_ne_iff.mp hchange
      constructor
      · intro hc
        exact heq.trans (h.1 hc)
      · intro hf
        exact heq.trans (h.2 hf)
  · simp only [sweepBotStep, sweepBotStepW, if_neg hactive]
    exact h

/-- A `processMeeting` invocation preserves the coupling invariant. -/
theorem statusesConsistent_process {st : SystemState} (snapshot fetchSnapshot : Option BotSnapshot)
    (env : TranscriptEnv) (now : Int) (h : StatusesConsistent st) :
    StatusesConsistent
      ⟨st.bot, processMeeting st.bot st.meeting snapshot fetchSnapshot env now⟩ := by
  rcases processMeeting_cases st.bot st.meeting snapshot fetchSnapshot env now with heq |
    ⟨hb, -, t, -, heq⟩
  · constructor
    · intro hc
      rw [show (⟨st.bot, processMeeting st.bot st.meeting snapshot fetchSnapshot env now⟩ :
        SystemState).meeting =
          processMeeting st.bot st.meeting snapshot fetchSnapshot env now from rfl,
        heq] at hc
      exact h.1 hc
    · intro hf
      rw [show (⟨st.bot, processMeeting st.bot st.meeting snapshot fetchSnapshot env now⟩ :
        SystemState).meeting =
          processMeeting st.bot st.meeting snapshot fetchSnapshot env now from rfl,
        heq] at hf
      exact h.2 hf
  · constructor
    · intro _
      exact hb
    · intro hf
      rw [show (⟨st.bot, processMeeting st.bot st.meeting snapshot fetchSnapshot env now⟩ :
        SystemState).meeting =
          processMeeting st.bot st.meeting snapshot fetchSnapshot env now from rfl,
        heq] at hf
      exact absurd hf (by simp)

/-- Every reachable bot-meeting pair satisfies the coupling invariant. -/
theorem reachable_consistent {st : SystemState} (h : SweepReachable st) :
    StatusesConsistent st := by
  induction h with
  | init =>
    exact ⟨fun hc => absurd hc (by decide), fun hf => absurd hf (by decide)⟩
  | step hr hstep ih =>
    cases hstep with
    | poll snap => exact statusesConsistent_poll snap ih
    | process snap fsnap env now => exact statusesConsistent_process snap fsnap env now ih

/-- C1 counterexample: the claimed monotonicity fails.  A bot stored as
`recording` that observes a (stale) `joining_call` event — whose mapped status
`joining` is strictly earlier in the order `scheduled → joining → recording →
{completed | failed}` — is not a no-op: `updateBotStatus` writes the bot back
to `joining`. -/
theorem updateBotStatus_backward_write :
    updateBotStatus ⟨.recording⟩ (some ⟨some [⟨"joining_call"⟩], none, none⟩) =
      ⟨⟨.joining⟩, true⟩ ∧
    botRank (BotStatus.joining) < botRank (BotStatus.recording) := by
  decide

/-- C1 (amended): the stored Bot status after an observation processed by
`updateBotStatus` is simply the mapped status of the latest `status_changes`
entry, regardless of direction; in particular an observation whose mapped
status is strictly earlier in the order than the current status is written
(moving the stored status backward), not ignored.  Only unrecognized codes
(and error/empty-snapshot paths) leave the status unchanged. -/
theorem updateBotStatus_follows_latest_observation :
    ∀ (recallBot : RecallBot) (s : BotSnapshot) (changes : List StatusChange)
      (latest : StatusChange),
      s.status_changes = some changes → changes.getLast? = some latest →
      (updateBotStatus recallBot (some s)).bot.status =
        mapRecallCode latest.code recallBot.status ∧
      (botRank (mapRecallCode latest.code recallBot.status) < botRank recallBot.status →
        updateBotStatus recallBot (some s) =
          ⟨⟨mapRecallCode latest.code recallBot.status⟩, true⟩) := by
  intro recallBot s changes latest h1 h2
  refine ⟨updateBotStatus_status recallBot s changes latest h1 h2, ?_⟩
  intro hlt
  rw [updateBotStatus_some_eq recallBot s changes latest h1 h2]
  have hne : mapRecallCode latest.code recallBot.status ≠ recallBot.status := by
    intro he
    rw [he] at hlt
    exact lt_irrefl _ hlt
  simp [hne]

/-- C1 witness: the amended statement applied to the concrete stale read. -/
theorem updateBotStatus_follows_latest_observation_witness :
    botRank (mapRecallCode "joining_call" BotStatus.recording) < botRank BotStatus.recording ∧
    updateBotStatus ⟨.recording⟩ (some ⟨some [⟨"joining_call"⟩], none, none⟩) =
      ⟨⟨mapRecallCode "joining_call" BotStatus.recording⟩, true⟩ :=
  ⟨by decide,
   (updateBotStatus_follows_latest_observation ⟨.recording⟩
      ⟨some [⟨"joining_call"⟩], none, none⟩ [⟨"joining_call"⟩] ⟨"joining_call"⟩ rfl rfl).2
     (by decide)⟩

/-- C2: `updateBotStatus` computes the new Bot status as a function of only
the latest `status_changes` entry's code, per the fixed table (`ready` →
`scheduled`; `joining_call`/`in_waiting_room` → `joining`;
`in_call_not_recording`/`in_call_recording` → `recording`;
`call_ended`/`recording_done`/`done` → `completed`; `failed`/`error` →
`failed`), and every unrecognized code leaves the Bot record unchanged with
no persistence write and no error (the function is total). -/
theorem updateBotStatus_mapping_table :
    ∀ (recallBot : RecallBot) (s : BotSnapshot) (changes : List StatusChange)
      (latest : StatusChange),
      s.status_changes = some changes → changes.getLast? = some latest →
      ((updateBotStatus recallBot (some s)).bot.status =
        (if latest.code = "ready" then BotStatus.scheduled
         else if latest.code = "joining_call" ∨ latest.code = "in_waiting_room" then
           BotStatus.joining
         else if latest.code = "in_call_not_recording" ∨ latest.code = "in_call_recording" then
           BotStatus.recording
         else if latest.code = "call_ended" ∨ latest.code = "recording_done" ∨
             latest.code = "done" then BotStatus.completed
         else if latest.code = "failed" ∨ latest.code = "error" then BotStatus.failed
         else recallBot.status)) ∧
      (latest.code ∉ recognizedRecallCodes →
        updateBotStatus recallBot (some s) = ⟨recallBot, false⟩) := by
  intro recallBot s changes latest h1 h2
  constructor
  · exact updateBotStatus_status recallBot s changes latest h1 h2
  · intro hmem
    rw [updateBotStatus_some_eq recallBot s changes latest h1 h2]
    simp [mapRecallCode_unrecognized latest.code recallBot.status hmem]

/-- C2 witness: the table applied to a recognized and an unrecognized code. -/
theorem updateBotStatus_mapping_table_witness :
    (updateBotStatus ⟨.scheduled⟩ (some ⟨some [⟨"ready"⟩, ⟨"in_call_recording"⟩], none, none⟩)).bot.status =
      BotStatus.recording ∧
    updateBotStatus ⟨.recording⟩ (some ⟨some [⟨"analysis_done"⟩], none, none⟩) =
      ⟨⟨.recording⟩, false⟩ :=
  ⟨(updateBotStatus_mapping_table ⟨.scheduled⟩
      ⟨some [⟨"ready"⟩, ⟨"in_call_recording"⟩], none, none⟩
      [⟨"ready"⟩, ⟨"in_call_recording"⟩] ⟨"in_call_recording"⟩ rfl rfl).1,
   (updateBotStatus_mapping_table ⟨.recording⟩ ⟨some [⟨"analysis_done"⟩], none, none⟩
      [⟨"analysis_done"⟩] ⟨"analysis_done"⟩ rfl rfl).2 (by decide)⟩

/-- C9: `updateBotStatus` is a no-op on every error path — a throwing provider
request (modelled by a `none` snapshot) or a missing, non-array or empty
`status_changes` list returns the stored Bot record unchanged with no
persistence write; being a total function, it never raises to its caller. -/
theorem updateBotStatus_noop_on_error :
    ∀ recallBot : RecallBot,
      updateBotStatus recallBot none = ⟨recallBot, false⟩ ∧
      (∀ s : BotSnapshot, s.status_changes = none →
        updateBotStatus recallBot (some s) = ⟨recallBot, false⟩) ∧
      (∀ s : BotSnapshot, s.status_changes = some [] →
        updateBotStatus recallBot (some s) = ⟨recallBot, false⟩) := by
  intro recallBot
  refine ⟨rfl, ?_, ?_⟩ <;> intro s h <;> simp [updateBotStatus, h]

/-- C9 witness: the no-op behaviour at the three concrete error shapes. -/
theorem updateBotStatus_noop_on_error_witness :
    updateBotStatus ⟨.joining⟩ none = ⟨⟨.joining⟩, false⟩ ∧
    updateBotStatus ⟨.joining⟩ (some ⟨none, none, none⟩) = ⟨⟨.joining⟩, false⟩ ∧
    updateBotStatus ⟨.joining⟩ (some ⟨some [], none, none⟩) = ⟨⟨.joining⟩, false⟩ :=
  ⟨(updateBotStatus_noop_on_error ⟨.joining⟩).1,
   (updateBotStatus_noop_on_error ⟨.joining⟩).2.1 ⟨none, none, none⟩ rfl,
   (updateBotStatus_noop_on_error ⟨.joining⟩).2.2 ⟨some [], none, none⟩ rfl⟩

/-- `getTranscript` returns null and requests no transcript endpoint when the
snapshot's recordings are missing or empty or transcription has not
completed. -/
theorem getTranscript_not_ready (s : BotSnapshot) (env : TranscriptEnv)
    (h : s.recordings = none ∨ s.recordings = some [] ∨
      ∃ r0 rest, s.recordings = some (r0 :: rest) ∧ r0.transcription_completed_at = none) :
    getTranscript (some s) env = ⟨none, []⟩ := by
  rcases h with h | h | ⟨r0, rest, h, htca⟩ <;> simp [getTranscript, h]
  simp [htca]

/-- C10 counterexample: the claimed consequence — that the `processMeeting`
branch proceeding after the 5-minute post-recording wait can never persist a
transcript in that same sweep — fails, because `getTranscript` performs its
own fresh `getBotStatus` read (oauthService.ts line 776).  Here the gate read
shows the recording completed 10 minutes ago with transcription not completed
(the 5-minute branch proceeds), the fresh read inside `getTranscript` shows
transcription completed, the first endpoint serves `"hello"`, and the
transcript is persisted in that very sweep. -/
theorem five_minute_branch_persists_on_fresh_read :
    (Recording.mk (some 0) none).transcription_completed_at = none ∧
    (5 * 60000 : Int) ≤ 600000 - 0 ∧
    processMeeting ⟨.completed⟩ ⟨.completed, none⟩
      (some ⟨some [⟨"done"⟩], some [⟨some 0, none⟩], none⟩)
      (some ⟨some [⟨"done"⟩], some [⟨some 0, some 540000⟩], none⟩)
      ⟨some (.str "hello"), none, none⟩ 600000 = ⟨.completed, some "hello"⟩ := by
  decide

/-- C10 (amended): `getTranscript` returns null without probing any transcript
endpoint whenever the snapshot it reads has a missing or empty recordings
array, or its first recording has no `transcription_completed_at`;
consequently the `processMeeting` branch that proceeds after the 5-minute
post-recording wait persists nothing whenever `getTranscript`'s own fresh
provider read still shows those not-ready conditions (in particular whenever
the provider state is unchanged within the sweep) — but not unconditionally,
since the fresh read is independent of the gate read. -/
theorem getTranscript_requires_completed_transcription :
    (∀ (s : BotSnapshot) (env : TranscriptEnv), s.recordings = none →
      getTranscript (some s) env = ⟨none, []⟩) ∧
    (∀ (s : BotSnapshot) (env : TranscriptEnv), s.recordings = some [] →
      getTranscript (some s) env = ⟨none, []⟩) ∧
    (∀ (s : BotSnapshot) (env : TranscriptEnv) (r0 : Recording) (rest : List Recording),
      s.recordings = some (r0 :: rest) → r0.transcription_completed_at = none →
      getTranscript (some s) env = ⟨none, []⟩) ∧
    (∀ (recallBot : RecallBot) (meeting : Meeting)
        (snapshot fetchSnapshot : Option BotSnapshot) (env : TranscriptEnv) (now : Int),
      (fetchSnapshot = none ∨ ∃ sf : BotSnapshot, fetchSnapshot = some sf ∧
        (sf.recordings = none ∨ sf.recordings = some [] ∨
          ∃ r0 rest, sf.recordings = some (r0 :: rest) ∧
            r0.transcription_completed_at = none)) →
      processMeeting recallBot meeting snapshot fetchSnapshot env now = meeting) := by
  refine ⟨fun s env h => getTranscript_not_ready s env (Or.inl h),
    fun s env h => getTranscript_not_ready s env (Or.inr (Or.inl h)),
    fun s env r0 rest h htca =>
      getTranscript_not_ready s env (Or.inr (Or.inr ⟨r0, rest, h, htca⟩)),
    ?_⟩
  intro recallBot meeting snapshot fetchSnapshot env now hnotready
  have hfetch : getTranscript fetchSnapshot env = ⟨none, []⟩ := by
    rcases hnotready with h | ⟨sf, hsf, h⟩
    · rw [h]
      rfl
    · rw [hsf]
      exact getTranscript_not_ready sf env h
  obtain ⟨ms, mt⟩ := meeting
  cases mt with
  | some u => simp [processMeeting]
  | none =>
    cases snapshot with
    | none => simp [processMeeting]
    | some s => simp [processMeeting, hfetch]

/-- C10 witness: concrete not-ready snapshots, including the 5-minute branch
(recording completed 10 minutes ago, transcription not completed on both
reads) where the fetch proceeds but persists nothing. -/
theorem getTranscript_requires_completed_transcription_witness :
    getTranscript (some ⟨some [⟨"done"⟩], none, none⟩) ⟨some (.str "x"), none, none⟩ =
      ⟨none, []⟩ ∧
    getTranscript (some ⟨some [⟨"done"⟩], some [], none⟩) ⟨some (.str "x"), none, none⟩ =
      ⟨none, []⟩ ∧
    getTranscript (some ⟨some [⟨"done"⟩], some [⟨some 0, none⟩], none⟩)
      ⟨some (.str "x"), none, none⟩ = ⟨none, []⟩ ∧
    processMeeting ⟨.completed⟩ ⟨.completed, none⟩
      (some ⟨some [⟨"done"⟩], some [⟨some 0, none⟩], none⟩)
      (some ⟨some [⟨"done"⟩], some [⟨some 0, none⟩], none⟩)
      ⟨some (.str "x"), none, none⟩ 600000 = ⟨.completed, none⟩ :=
  ⟨getTranscript_requires_completed_transcription.1 _ _ rfl,
   getTranscript_requires_completed_transcription.2.1 _ _ rfl,
   getTranscript_requires_completed_transcription.2.2.1 _ _ ⟨some 0, none⟩ [] rfl rfl,
   getTranscript_requires_completed_transcription.2.2.2 ⟨.completed⟩ ⟨.completed, none⟩
     _ _ _ 600000
     (Or.inr ⟨⟨some [⟨"done"⟩], some [⟨some 0, none⟩], none⟩, rfl,
       Or.inr (Or.inr ⟨⟨some 0, none⟩, [], rfl, rfl⟩)⟩)⟩

/-- C7 counterexample: all conditions of the claim hold — the Bot is
`completed`, the Meeting transcript is null, `transcription_completed_at` is
3 minutes before now, and the first transcript endpoint yields the non-empty
string body `"hello"` — yet `processMeeting` persists nothing, because the
snapshot's latest status code (`analysis_done`) is outside the
`done`/`recording_done`/`call_ended` gate the code additionally imposes. -/
theorem transcript_fetch_blocked_by_status_gate :
    processMeeting ⟨.completed⟩ ⟨.completed, none⟩
      (some ⟨some [⟨"done"⟩, ⟨"analysis_done"⟩], some [⟨some 0, some 420000⟩],
        some "deepgram"⟩)
      (some ⟨some [⟨"done"⟩, ⟨"analysis_done"⟩], some [⟨some 0, some 420000⟩],
        some "deepgram"⟩)
      ⟨some (.str "hello"), none, none⟩ 600000 = ⟨.completed, none⟩ ∧
    (2 * 60000 : Int) < 600000 - 420000 ∧
    extractTranscript (.str "hello") = some "hello" := by
  decide

/-- C7 (amended): given a Bot in `completed` status and a Meeting with null
transcript, if the gate snapshot's first recording has
`transcription_completed_at` set less than 2 minutes before now,
`processMeeting` returns not-ready and leaves the Meeting unchanged (whatever
`getTranscript`'s own fresh read would show); if it is set more than 2 minutes
before now and — as the code additionally requires — the gate snapshot's
latest status code is one of `done`/`recording_done`/`call_ended` and
transcription is not disabled (`provider ≠ 'none'`), then a transcript fetch
yielding a non-empty (after trimming) text persists that text to the Meeting
together with status `completed` in a single update. -/
theorem transcript_fetch_quiescence :
    (∀ (recallBot : RecallBot) (meeting : Meeting) (s : BotSnapshot)
        (fetchSnapshot : Option BotSnapshot)
        (env : TranscriptEnv) (now tca : Int) (changes : List StatusChange)
        (latest : StatusChange) (r0 : Recording) (rest : List Recording) (t : String),
      recallBot.status = .completed → meeting.transcript = none →
      s.status_changes = some changes → changes.getLast? = some latest →
      (latest.code = "done" ∨ latest.code = "recording_done" ∨ latest.code = "call_ended") →
      s.recordings = some (r0 :: rest) →
      s.transcriptionProvider ≠ some "none" →
      r0.transcription_completed_at = some tca →
      2 * 60000 < now - tca →
      (getTranscript fetchSnapshot env).transcript = some t →
      trimJS t ≠ "" →
      processMeeting recallBot meeting (some s) fetchSnapshot env now =
        { meeting with transcript := some t, status := .completed }) ∧
    (∀ (recallBot : RecallBot) (meeting : Meeting) (s : BotSnapshot)
        (fetchSnapshot : Option BotSnapshot)
        (env : TranscriptEnv) (now tca : Int) (r0 : Recording) (rest : List Recording),
      s.recordings = some (r0 :: rest) →
      r0.transcription_completed_at = some tca →
      now - tca < 2 * 60000 →
      processMeeting recallBot meeting (some s) fetchSnapshot env now = meeting) := by
  constructor
  · intro recallBot meeting s fetchSnapshot env now tca changes latest r0 rest t hb hmt
      h1 h2 hcode hrec hprov htca hwin hfetch htrim
    have hgates : processGatesPass s now = true := by
      simp only [processGatesPass, h1, h2, hrec, htca]
      rw [if_neg (by simp [hcode]), if_neg hprov]
      simp only [decide_eq_true_eq]
      omega
    obtain ⟨ms, mt⟩ := meeting
    cases mt with
    | some u => cases hmt
    | none =>
      simp [processMeeting, hb, hgates, hfetch, htrim]
  · intro recallBot meeting s fetchSnapshot env now tca r0 rest hrec htca hwin
    have hgates : processGatesPass s now = false := by
      cases hsc : s.status_changes with
      | none => simp [processGatesPass, hsc]
      | some changes =>
        cases hgl : changes.getLast? with
        | none => simp [processGatesPass, hsc, hgl]
        | some latest =>
          by_cases hcode : latest.code = "done" ∨ latest.code = "recording_done" ∨
              latest.code = "call_ended"
          · by_cases hprov : s.transcriptionProvider = some "none"
            · simp [processGatesPass, hsc, hgl, hcode, hrec, hprov]
            · simp only [processGatesPass, hsc, hgl, hrec, htca]
              rw [if_neg (by simp [hcode]), if_neg hprov]
              simp only [decide_eq_false_iff_not]
              omega
          · simp [processGatesPass, hsc, hgl, hcode]
    obtain ⟨ms, mt⟩ := meeting
    cases mt with
    | some u => simp [processMeeting]
    | none => simp [processMeeting, hgates]

/-- C7 witness: both directions at concrete inputs — transcription completed
3 minutes ago persists the fetched text with status `completed`; completed
1 minute ago leaves the Meeting unchanged (both provider reads identical). -/
theorem transcript_fetch_quiescence_witness :
    processMeeting ⟨.completed⟩ ⟨.completed, none⟩
      (some ⟨some [⟨"done"⟩], some [⟨some 0, some 420000⟩], some "deepgram"⟩)
      (some ⟨some [⟨"done"⟩], some [⟨some 0, some 420000⟩], some "deepgram"⟩)
      ⟨some (.str "hello"), none, none⟩ 600000 = ⟨.completed, some "hello"⟩ ∧
    processMeeting ⟨.completed⟩ ⟨.completed, none⟩
      (some ⟨some [⟨"done"⟩], some [⟨some 0, some 540000⟩], some "deepgram"⟩)
      (some ⟨some [⟨"done"⟩], some [⟨some 0, some 540000⟩], some "deepgram"⟩)
      ⟨some (.str "hello"), none, none⟩ 600000 = ⟨.completed, none⟩ :=
  ⟨transcript_fetch_quiescence.1 ⟨.completed⟩ ⟨.completed, none⟩
     ⟨some [⟨"done"⟩], some [⟨some 0, some 420000⟩], some "deepgram"⟩
     (some ⟨some [⟨"done"⟩], some [⟨some 0, some 420000⟩], some "deepgram"⟩)
     ⟨some (.str "hello"), none, none⟩ 600000 420000 [⟨"done"⟩] ⟨"done"⟩
     ⟨some 0, some 420000⟩ [] "hello" rfl rfl rfl rfl (by decide) rfl
     (by decide) rfl (by decide) (by decide) (by decide),
   transcript_fetch_quiescence.2 ⟨.completed⟩ ⟨.completed, none⟩
     ⟨some [⟨"done"⟩], some [⟨some 0, some 540000⟩], some "deepgram"⟩
     (some ⟨some [⟨"done"⟩], some [⟨some 0, some 540000⟩], some "deepgram"⟩)
     ⟨some (.str "hello"), none, none⟩ 600000 540000 ⟨some 0, some 540000⟩ []
     rfl rfl (by decide)⟩

/-- C5: once a Meeting's transcript is non-null, no reconciliation step — a
phase-1 poll or a `processMeeting` invocation (sweep phase 2 or the manual
fetch route) — changes it: the terminal transcript write is reached at most
once and the stored value is immutable thereafter. -/
theorem meeting_transcript_immutable :
    ∀ (st st' : SystemState) (t : String),
      st.meeting.transcript = some t → SweepStep st st' →
      st'.meeting.transcript = some t := by
  intro st st' t h hstep
  cases hstep with
  | poll snap =>
    rw [sweepBotStep_transcript]
    exact h
  | process snap fsnap env now =>
    show (processMeeting st.bot st.meeting snap fsnap env now).transcript = some t
    rw [processMeeting_preserves_transcript st.bot st.meeting snap fsnap env now t h]
    exact h

/-- C5 witness: a poll after the transcript is stored leaves it in place. -/
theorem meeting_transcript_immutable_witness :
    (sweepBotStep ⟨⟨.completed⟩, ⟨.completed, some "hello"⟩⟩ none).meeting.transcript =
      some "hello" :=
  meeting_transcript_immutable ⟨⟨.completed⟩, ⟨.completed, some "hello"⟩⟩ _ "hello" rfl
    (SweepStep.poll _ none)

/-- C4 counterexample: the claimed no-downgrade property fails on a
program-reachable state.  A failed enable followed by a retried enable leaves
the event with a stale `failed` Meeting (first row), a fresh `scheduled`
Meeting and an active Bot; the next sweep's `getMeetingByCalendarEventId`
lookup returns the stale first row, and when the bot reaches `recording` the
propagation writes `in_progress` over `failed` — moving that Meeting backward
in rank. -/
theorem sweep_downgrades_stale_failed_meeting :
    (toggleRecordingEnable (toggleRecordingEnable ⟨[], []⟩ true false) true true).meetings.head? =
      some failedBotMeeting ∧
    (sweepPollEvent (toggleRecordingEnable (toggleRecordingEnable ⟨[], []⟩ true false) true true)
        (some ⟨some [⟨"in_call_recording"⟩], none, none⟩)).meetings.head? =
      some ⟨.in_progress, some "Failed to create recording bot"⟩ ∧
    meetingRank MeetingStatus.in_progress < meetingRank MeetingStatus.failed := by
  decide

/-- C4 (amended): on states keeping the data-model invariant of one Meeting
per event, linked to the event's Bot — every pair reachable from a freshly
created bot-meeting pair — no reconciliation step moves the Meeting status
backward in the order `scheduled → in_progress → {completed | failed}`,
whatever (possibly delayed or out-of-order) statuses the provider reports:
the rank never decreases and the terminal statuses, once reached, are
preserved exactly.  The guarantee does not extend to the duplicate-meeting
states a failed-then-retried enable leaves behind, where a sweep poll
downgrades the stale `failed` Meeting to `in_progress`. -/
theorem meeting_status_never_downgrades :
    ∀ st st' : SystemState, SweepReachable st → SweepStep st st' →
      meetingRank st.meeting.status ≤ meetingRank st'.meeting.status ∧
      (st.meeting.status = .completed → st'.meeting.status = .completed) ∧
      (st.meeting.status = .failed → st'.meeting.status = .failed) := by
  intro st st' hreach hstep
  have hinv := reachable_consistent hreach
  cases hstep with
  | poll snap =>
    by_cases hactive : st.bot.status ∈ activeStatuses
    · have hnc : st.meeting.status ≠ .completed :=
        fun hc => absurd (hinv.1 hc) (active_ne_completed hactive)
      have hnf : st.meeting.status ≠ .failed :=
        fun hf => absurd (hinv.2 hf) (active_ne_failed hactive)
      have hrank : meetingRank st.meeting.status ≤ 1 := by
        cases hms : st.meeting.status <;> simp_all [meetingRank]
      refine ⟨?_, fun hc => absurd hc hnc, fun hf => absurd hf hnf⟩
      simp only [sweepBotStep, sweepBotStepW, if_pos hactive]
      split_ifs with hchange hdiff
      · exact propagate_rank_mono hrank
      · exact le_refl _
      · exact le_refl _
    · simp only [sweepBotStep, sweepBotStepW, if_neg hactive]
      exact ⟨le_refl _, fun hc => hc, fun hf => hf⟩
  | process snap fsnap env now =>
    rcases processMeeting_cases st.bot st.meeting snap fsnap env now with heq |
      ⟨hb, -, t, -, heq⟩
    · show meetingRank st.meeting.status ≤
          meetingRank (processMeeting st.bot st.meeting snap fsnap env now).status ∧ _
      rw [heq]
      exact ⟨le_refl _, fun hc => hc, fun hf => hf⟩
    · show meetingRank st.meeting.status ≤
          meetingRank (processMeeting st.bot st.meeting snap fsnap env now).status ∧ _
      rw [heq]
      refine ⟨?_, fun _ => rfl, ?_⟩
      · cases hms : st.meeting.status <;> simp [meetingRank]
      · intro hf
        exact absurd (hinv.2 hf) (by simp [hb])

/-- C4 witness: one poll step from the initial pair. -/
theorem meeting_status_never_downgrades_witness :
    meetingRank initialState.meeting.status ≤
      meetingRank (sweepBotStep initialState none).meeting.status ∧
    (initialState.meeting.status = .completed →
      (sweepBotStep initialState none).meeting.status = .completed) ∧
    (initialState.meeting.status = .failed →
      (sweepBotStep initialState none).meeting.status = .failed) :=
  meeting_status_never_downgrades initialState _ SweepReachable.init
    (SweepStep.poll initialState none)

/-- C3 counterexample: the claimed propagation `Bot joining → Meeting
in_progress` fails.  A `scheduled` bot observing `joining_call` changes to
`joining`, but the sweep leaves the linked Meeting at `scheduled` (the code
propagates `in_progress` only for bot statuses `joined` and `recording`). -/
theorem sweep_joining_no_meeting_propagation :
    (sweepBotStep ⟨⟨.scheduled⟩, ⟨.scheduled, none⟩⟩
        (some ⟨some [⟨"joining_call"⟩], none, none⟩)).bot.status = .joining ∧
    (sweepBotStep ⟨⟨.scheduled⟩, ⟨.scheduled, none⟩⟩
        (some ⟨some [⟨"joining_call"⟩], none, none⟩)).meeting.status = .scheduled := by
  decide

/-- C3 (amended): in a sweep iteration whose bot is in the active set and
whose status changed, the linked Meeting's status is propagated as: Bot
`joined` or `recording` → Meeting `in_progress`; Bot `completed` → Meeting
`completed` (the transcript itself is untouched by this step, being supplied
by the separate transcript-fetch phase); Bot `failed` → Meeting `failed`; a
change to `joining` (or `scheduled`) propagates nothing; and the Meeting row
is written only when the propagated status differs from its current one. -/
theorem sweep_meeting_propagation_table :
    ∀ (st : SystemState) (snapshot : Option BotSnapshot),
      st.bot.status ∈ activeStatuses →
      (updateBotStatus st.bot snapshot).bot.status ≠ st.bot.status →
      ((sweepBotStep st snapshot).meeting.status =
        (match (updateBotStatus st.bot snapshot).bot.status with
         | .joined => MeetingStatus.in_progress
         | .recording => MeetingStatus.in_progress
         | .completed => MeetingStatus.completed
         | .failed => MeetingStatus.failed
         | _ => st.meeting.status)) ∧
      (sweepBotStep st snapshot).meeting.transcript = st.meeting.transcript ∧
      ((sweepBotStepW st snapshot).2 = true ↔
        propagateMeetingStatus (updateBotStatus st.bot snapshot).bot.status
          st.meeting.status ≠ st.meeting.status) := by
  intro st snapshot hactive hchange
  refine ⟨?_, sweepBotStep_transcript st snapshot, ?_⟩
  · rw [← propagate_as_match]
    simp only [sweepBotStep, sweepBotStepW, if_pos hactive, if_pos hchange]
    split_ifs with hdiff
    · rfl
    · exact (not_ne_iff.mp hdiff).symm
  · simp only [sweepBotStepW, if_pos hactive, if_pos hchange]
    split_ifs with hdiff
    · simp [hdiff]
    · simp [not_ne_iff.mp hdiff]

/-- C3 witness: the spec's own scenario — a `joining` bot observing
`in_call_recording` becomes `recording` and the Meeting moves to
`in_progress` with one write. -/
theorem sweep_meeting_propagation_table_witness :
    ((sweepBotStep ⟨⟨.joining⟩, ⟨.scheduled, none⟩⟩
        (some ⟨some [⟨"in_call_recording"⟩], none, none⟩)).meeting.status =
      (match (updateBotStatus (⟨.joining⟩ : RecallBot)
          (some ⟨some [⟨"in_call_recording"⟩], none, none⟩)).bot.status with
       | .joined => MeetingStatus.in_progress
       | .recording => MeetingStatus.in_progress
       | .completed => MeetingStatus.completed
       | .failed => MeetingStatus.failed
       | _ => MeetingStatus.scheduled)) ∧
    (sweepBotStep ⟨⟨.joining⟩, ⟨.scheduled, none⟩⟩
        (some ⟨some [⟨"in_call_recording"⟩], none, none⟩)).meeting.transcript = none ∧
    ((sweepBotStepW ⟨⟨.joining⟩, ⟨.scheduled, none⟩⟩
        (some ⟨some [⟨"in_call_recording"⟩], none, none⟩)).2 = true ↔
      propagateMeetingStatus (updateBotStatus (⟨.joining⟩ : RecallBot)
          (some ⟨some [⟨"in_call_recording"⟩], none, none⟩)).bot.status
        MeetingStatus.scheduled ≠ MeetingStatus.scheduled) :=
  sweep_meeting_propagation_table ⟨⟨.joining⟩, ⟨.scheduled, none⟩⟩
    (some ⟨some [⟨"in_call_recording"⟩], none, none⟩) (by decide) (by decide)

/-- C6 counterexample: the claimed at-most-one-Meeting idempotency fails for
invocations after an earlier failed attempt.  Enabling recording on a fresh
event with provider bot creation failing, then enabling again with it
succeeding, leaves two Meeting rows for the event (the idempotency lookup is
keyed on the Bot row only, and the failed attempt saved no Bot). -/
theorem toggle_after_failure_duplicates_meeting :
    ((toggleRecordingEnable (toggleRecordingEnable ⟨[], []⟩ true false) true true).meetings).length = 2 ∧
    ((toggleRecordingEnable (toggleRecordingEnable ⟨[], []⟩ true false) true true).bots).length = 1 := by
  decide

/-- C6 (amended): for every CalendarEvent, at most one Bot row ever exists,
over any sequence of recording-enable invocations and outcomes, and every
invocation finding an existing Bot row is a no-op; but the Meeting half of
the claim holds only when no failed creation attempt precedes — an invocation
after an earlier failed attempt creates an additional Meeting row, because
the lookup detects only Bots. -/
theorem toggle_at_most_one_bot :
    (∀ st : EventState, ToggleReach st → st.bots.length ≤ 1) ∧
    (∀ (st : EventState) (joinTimeInFuture botCreationSucceeds : Bool),
      st.bots ≠ [] →
      toggleRecordingEnable st joinTimeInFuture botCreationSucceeds = st) := by
  constructor
  · intro st h
    induction h with
    | init => decide
    | step f b hr ih =>
      rename_i st0
      cases hh : st0.bots.head? with
      | some x => simp [toggleRecordingEnable, hh, ih]
      | none =>
        have hnil : st0.bots = [] := List.head?_eq_none_iff.mp hh
        simp only [toggleRecordingEnable, hh]
        split_ifs <;> simp [hnil]
  · intro st f b hne
    cases hh : st.bots.head? with
    | some x => simp [toggleRecordingEnable, hh]
    | none => exact absurd (List.head?_eq_none_iff.mp hh) hne

/-- C6 witness: one successful enable keeps the bot count at one, and a
repeat invocation with a Bot present is a no-op. -/
theorem toggle_at_most_one_bot_witness :
    (toggleRecordingEnable ⟨[], []⟩ true true).bots.length ≤ 1 ∧
    toggleRecordingEnable ⟨[⟨.scheduled⟩], [⟨.scheduled, none⟩]⟩ true true =
      ⟨[⟨.scheduled⟩], [⟨.scheduled, none⟩]⟩ :=
  ⟨toggle_at_most_one_bot.1 _ (ToggleReach.step true true ToggleReach.init),
   toggle_at_most_one_bot.2 ⟨[⟨.scheduled⟩], [⟨.scheduled, none⟩]⟩ true true (by decide)⟩

/-- C8: when Meeting creation succeeds but provider bot creation fails, the
recording-enable action marks that Meeting `failed` with the diagnostic
transcript placeholder; consequently, over any sequence of enable
invocations, an event with no Bot row never holds a Meeting left at
`scheduled` — every meeting of a bot-less event is `failed` with the
placeholder. -/
theorem partial_failure_marks_meeting_failed :
    ∀ st : EventState, ToggleReach st → st.bots = [] →
      ∀ m ∈ st.meetings,
        m.status = .failed ∧ m.transcript = some "Failed to create recording bot" := by
  intro st h
  induction h with
  | init =>
    intro _ m hm
    cases hm
  | step f b hr ih =>
    rename_i st0
    intro hbots m hm
    cases hh : st0.bots.head? with
    | some x =>
      simp only [toggleRecordingEnable, hh] at hbots hm
      exact ih hbots m hm
    | none =>
      have hnil : st0.bots = [] := List.head?_eq_none_iff.mp hh
      simp only [toggleRecordingEnable, hh] at hbots hm
      cases f with
      | false =>
        simp only [Bool.false_eq_true, if_false] at hm
        exact ih hnil m hm
      | true =>
        cases b with
        | true =>
          simp [hnil] at hbots
        | false =>
          simp only [Bool.false_eq_true, if_false, if_true] at hm
          rw [List.mem_append] at hm
          rcases hm with hm | hm
          · exact ih hnil m hm
          · rw [List.mem_singleton] at hm
            rw [hm]
            exact ⟨rfl, rfl⟩

/-- C8 witness: one failed enable on a fresh event leaves exactly the failed
placeholder Meeting and no Bot. -/
theorem partial_failure_marks_meeting_failed_witness :
    (toggleRecordingEnable ⟨[], []⟩ true false).bots = [] ∧
    failedBotMeeting ∈ (toggleRecordingEnable ⟨[], []⟩ true false).meetings ∧
    failedBotMeeting.status = .failed ∧
    failedBotMeeting.transcript = some "Failed to create recording bot" :=
  ⟨by decide, by decide,
   partial_failure_marks_meeting_failed _ (ToggleReach.step true false ToggleReach.init)
     (by decide) failedBotMeeting (by decide)⟩

end ContentCraft
